import Mathlib

set_option maxRecDepth 8000

/-!
Verification of the AutoUI device-automation engine
(`src/auto_click_enhanced_simple.py`) against its natural-language
specification.

The Python source is shallowly embedded: pure fragments become Lean
functions, the per-device worker loop (`AutoClickUI.device_thread_func`)
becomes a step function on an explicit worker state driven by a
per-iteration environment (screen-capture outcome, template-match
results, random draws, external pause/stop signals), and the supervisor
(`AutoClickUI.start_device` / `stop_device`) becomes a transition system
over a registry of stop/pause signal objects and spawned threads.
Wall-clock time is modelled over `ℚ`, advancing only at the explicit
`time.sleep` calls of the source; all other operations are instantaneous.
Fallible collaborator calls (adb subprocess, cv2) appear as oracle
inputs of `Option`/`Except` type.
-/

namespace AutoUI

/-! ## StatusLogger (`StatusLogger.log` / `StatusLogger.get_history`)

`log` appends an entry to `self.history` and, when the length exceeds
1000, keeps only the last 1000 (`self.history = self.history[-1000:]`).
`get_history(count)` returns `self.history[-count:]`; note that for
`count = 0` the Python slice `[-0:]` is `[0:]`, i.e. the whole list. -/

/-- One `log` call of `StatusLogger.log`, acting on the `history` list:
append, then trim to the most recent 1000 entries. -/
def logStep {α : Type} (h : List α) (e : α) : List α :=
  if 1000 < (h ++ [e]).length then (h ++ [e]).drop ((h ++ [e]).length - 1000)
  else h ++ [e]

/-- `StatusLogger.get_history(count)`: the Python slice `history[-count:]`.
For `count = 0` the slice index `-0` is `0`, so the whole list is returned;
for `0 < count` it is the last `min count length` entries. -/
def get_history {α : Type} (h : List α) (count : ℕ) : List α :=
  if count = 0 then h else h.drop (h.length - count)

/-- Publishing a whole sequence of events through `StatusLogger.log`,
starting from an initial history. -/
def runLog {α : Type} (h : List α) (es : List α) : List α :=
  es.foldl logStep h

theorem logStep_of_lt {α : Type} (h : List α) (e : α) (hl : h.length < 1000) :
    logStep h e = h ++ [e] := by
  unfold logStep
  rw [if_neg]
  simp only [List.length_append, List.length_singleton]
  omega

theorem logStep_of_eq {α : Type} (h : List α) (e : α) (hl : h.length = 1000) :
    logStep h e = (h ++ [e]).drop 1 := by
  unfold logStep
  rw [if_pos]
  · refine congrArg (fun n => List.drop n (h ++ [e])) ?_
    simp only [List.length_append, List.length_singleton]
    omega
  · simp only [List.length_append, List.length_singleton]
    omega

theorem logStep_length_le {α : Type} (h : List α) (e : α)
    (hl : h.length ≤ 1000) : (logStep h e).length ≤ 1000 := by
  rcases lt_or_eq_of_le hl with h1 | h1
  · rw [logStep_of_lt h e h1]
    simp only [List.length_append, List.length_singleton]
    omega
  · rw [logStep_of_eq h e h1]
    simp only [List.length_drop, List.length_append, List.length_singleton]
    omega

theorem runLog_eq {α : Type} (es : List α) (h : List α)
    (hh : h.length ≤ 1000) :
    runLog h es = (h ++ es).drop (h.length + es.length - 1000) := by
  induction es generalizing h with
  | nil =>
    simp only [runLog, List.foldl_nil, List.append_nil, List.length_nil,
      Nat.add_zero]
    rw [Nat.sub_eq_zero_of_le hh, List.drop_zero]
  | cons e t ih =>
    have hstep : runLog h (e :: t) = runLog (logStep h e) t := by
      simp only [runLog, List.foldl_cons]
    rw [hstep, ih _ (logStep_length_le h e hh)]
    rcases lt_or_eq_of_le hh with h1 | h1
    · rw [logStep_of_lt h e h1, List.append_assoc, List.singleton_append]
      refine congrArg (fun n => List.drop n (h ++ e :: t)) ?_
      simp only [List.length_append, List.length_singleton, List.length_cons,
        List.length_nil]
      omega
    · rw [logStep_of_eq h e h1,
        ← List.drop_append_of_le_length (by simp : 1 ≤ (h ++ [e]).length),
        List.drop_drop, List.append_assoc, List.singleton_append]
      refine congrArg (fun n => List.drop n (h ++ e :: t)) ?_
      simp only [List.length_drop, List.length_append, List.length_singleton,
        List.length_cons, List.length_nil]
      omega

/-- C7: the event history is bounded at 1000 entries, oldest evicted
first: after publishing any sequence of at least 1000 events,
`get_history n` for any `n ≥ 1000` returns exactly the 1000 most recent
events in chronological publish order. -/
theorem C7_history_bound {α : Type} (events : List α) (n : ℕ)
    (hev : 1000 ≤ events.length) (hn : 1000 ≤ n) :
    get_history (runLog [] events) n = events.drop (events.length - 1000) ∧
    (get_history (runLog [] events) n).length = 1000 := by
  have hrun : runLog [] events = events.drop (events.length - 1000) := by
    have := runLog_eq events [] (by simp)
    simpa using this
  have hlen : (runLog [] events).length = 1000 := by
    rw [hrun]
    simp only [List.length_drop]
    omega
  have hn0 : n ≠ 0 := by omega
  have key : get_history (runLog [] events) n = runLog [] events := by
    unfold get_history
    rw [if_neg hn0, hlen]
    have h0 : 1000 - n = 0 := by omega
    rw [h0, List.drop_zero]
  exact ⟨by rw [key, hrun], by rw [key, hlen]⟩

/-- Witness for C7 at a concrete input: 1000 published events, queried
with `n = 2000` (the spec's example of 1500 events behaves identically). -/
theorem C7_history_bound_witness :
    get_history (runLog [] (List.replicate 1000 (0 : ℕ))) 2000 =
      (List.replicate 1000 (0 : ℕ)).drop
        ((List.replicate 1000 (0 : ℕ)).length - 1000) ∧
    (get_history (runLog [] (List.replicate 1000 (0 : ℕ))) 2000).length = 1000 :=
  C7_history_bound (List.replicate 1000 (0 : ℕ)) 2000 (by simp) (by omega)

/-! ## `AutoClicker.random_click` — randomized click offset geometry

The source draws `offset = random.randint(5, 30)` (an integer magnitude,
uniform on `[click_min, click_max] = [5, 30]`), an angle
`angle = random.uniform(0, 2π)`, and dispatches the tap at
`(x + int(offset*cos(angle)), y + int(offset*sin(angle)))`.
The random angle is represented here by its cosine/sine pair `(c, s)`
subject to `c² + s² = 1` (every angle in `[0, 2π)` yields such a pair and
every such pair is realised by exactly one angle in `[0, 2π)`).
Python `int()` truncates toward zero. -/

/-- Python `int()` on a rational value: truncation toward zero
(`⌊q⌋` for `q ≥ 0`, `⌈q⌉` for `q < 0`). -/
def pyInt (q : ℚ) : ℤ := if 0 ≤ q then ⌊q⌋ else ⌈q⌉

/-- `click_min = 5`, the minimum offset magnitude in `random_click`. -/
def click_min : ℤ := 5

/-- `click_max = 30`, the maximum offset magnitude in `random_click`. -/
def click_max : ℤ := 30

/-- The planar offset `(offset_x, offset_y) =
(int(offset*cos angle), int(offset*sin angle))` applied by
`AutoClicker.random_click`, with the angle given by `(c, s) = (cos, sin)`. -/
def clickOffset (offset : ℤ) (c s : ℚ) : ℤ × ℤ :=
  (pyInt (offset * c), pyInt (offset * s))

/-- The dispatched tap coordinates `(click_x, click_y) =
(x + offset_x, y + offset_y)` of `AutoClicker.random_click`. -/
def clickTarget (x y : ℤ) (offset : ℤ) (c s : ℚ) : ℤ × ℤ :=
  (x + (clickOffset offset c s).1, y + (clickOffset offset c s).2)

theorem abs_pyInt_le (q : ℚ) : |(pyInt q : ℚ)| ≤ |q| := by
  unfold pyInt
  split
  · rename_i h
    rw [abs_of_nonneg h,
      abs_of_nonneg (by exact_mod_cast Int.floor_nonneg.mpr h : (0:ℚ) ≤ (⌊q⌋ : ℚ))]
    exact Int.floor_le q
  · rename_i h
    push_neg at h
    have hc : (⌈q⌉ : ℚ) ≤ 0 := by
      exact_mod_cast Int.ceil_le.mpr (by exact_mod_cast h.le : q ≤ ((0:ℤ) : ℚ))
    rw [abs_of_neg h, abs_of_nonpos hc]
    exact neg_le_neg (Int.le_ceil q)

theorem abs_lt_abs_pyInt_add_one (q : ℚ) : |q| < |(pyInt q : ℚ)| + 1 := by
  unfold pyInt
  split
  · rename_i h
    rw [abs_of_nonneg h,
      abs_of_nonneg (by exact_mod_cast Int.floor_nonneg.mpr h : (0:ℚ) ≤ (⌊q⌋ : ℚ))]
    exact Int.lt_floor_add_one q
  · rename_i h
    push_neg at h
    have hc : (⌈q⌉ : ℚ) ≤ 0 := by
      exact_mod_cast Int.ceil_le.mpr (by exact_mod_cast h.le : q ≤ ((0:ℤ) : ℚ))
    rw [abs_of_neg h, abs_of_nonpos hc]
    have := Int.ceil_lt_add_one q
    linarith

/-- C4 counterexample: with the drawn magnitude `offset = 5 ∈ [5, 30]` and
the angle `θ ∈ [0, 2π)` whose cosine/sine pair is `(20/29, 21/29)`
(a point on the unit circle), the dispatched tap lands at offset `(3, 3)`,
whose squared Euclidean distance from the match location is `18 < 5² = 25`:
the realized distance falls strictly below `minOffset`, refuting the
claimed bound `[5, 30]`. -/
theorem C4_offset_counterexample :
    ((20:ℚ)/29)^2 + ((21:ℚ)/29)^2 = 1 ∧
    click_min ≤ 5 ∧ (5:ℤ) ≤ click_max ∧
    clickOffset 5 ((20:ℚ)/29) ((21:ℚ)/29) = (3, 3) ∧
    (3:ℤ)^2 + 3^2 < 5^2 := by
  refine ⟨by norm_num, by norm_num [click_min], by norm_num [click_max], ?_,
    by norm_num⟩
  have hck : clickOffset 5 ((20:ℚ)/29) ((21:ℚ)/29) =
      (pyInt (((5:ℤ):ℚ) * (20/29)), pyInt (((5:ℤ):ℚ) * (21/29))) := rfl
  have e1 : ((5:ℤ):ℚ) * ((20:ℚ)/29) = 100/29 := by norm_num
  have e2 : ((5:ℤ):ℚ) * ((21:ℚ)/29) = 105/29 := by norm_num
  rw [hck, e1, e2]
  unfold pyInt
  rw [if_pos (by norm_num : (0:ℚ) ≤ 100/29), if_pos (by norm_num : (0:ℚ) ≤ 105/29)]
  have f1 : ⌊(100:ℚ)/29⌋ = 3 := by
    rw [Int.floor_eq_iff]
    constructor <;> norm_num
  have f2 : ⌊(105:ℚ)/29⌋ = 3 := by
    rw [Int.floor_eq_iff]
    constructor <;> norm_num
  rw [f1, f2]

/-- C4 amended: for every randomized click, the squared Euclidean distance
between the matched location and the dispatched tap location is at most
`maxOffset² = 900`, and strictly greater than `(minOffset − 2)² = 9`:
the pre-truncation magnitude is uniform on `[5, 30]`, but the `int()`
truncation of each offset component can push the realized distance
strictly below `minOffset = 5` (never to or below `5 − √2`). -/
theorem truncDist_bounds (o a b A B : ℚ)
    (ha0 : 0 ≤ a) (hb0 : 0 ≤ b) (hA0 : 0 ≤ A) (hB0 : 0 ≤ B)
    (hx1 : a ≤ A) (hx2 : A < a + 1) (hy1 : b ≤ B) (hy2 : B < b + 1)
    (hAB : A^2 + B^2 = o^2) (ho5 : 5 ≤ o) (ho30 : o ≤ 30) :
    a^2 + b^2 ≤ 900 ∧ 9 < a^2 + b^2 := by
  constructor
  · have h1 : a^2 ≤ A^2 := by nlinarith
    have h2 : b^2 ≤ B^2 := by nlinarith
    nlinarith [sq_nonneg (o - 30)]
  · by_contra hcon
    push_neg at hcon
    have hA2 : A^2 < (a+1)^2 := sq_lt_sq' (by linarith) hx2
    have hB2 : B^2 < (b+1)^2 := sq_lt_sq' (by linarith) hy2
    have ho2 : (25:ℚ) ≤ o^2 := by nlinarith [sq_nonneg (o - 5)]
    have h7 : 7 < a + b := by nlinarith
    have h49 : (7:ℚ)^2 < (a+b)^2 := sq_lt_sq' (by linarith) h7
    nlinarith [sq_nonneg (a - b)]

theorem C4_offset_bounds_amended (offset : ℤ) (c s : ℚ)
    (h5 : click_min ≤ offset) (h30 : offset ≤ click_max)
    (hcs : c^2 + s^2 = 1) :
    (clickOffset offset c s).1^2 + (clickOffset offset c s).2^2 ≤ 900 ∧
    9 < (clickOffset offset c s).1^2 + (clickOffset offset c s).2^2 := by
  have h5' : (5:ℤ) ≤ offset := h5
  have h30' : offset ≤ (30:ℤ) := h30
  have hck1 : (clickOffset offset c s).1 = pyInt ((offset:ℚ) * c) := rfl
  have hck2 : (clickOffset offset c s).2 = pyInt ((offset:ℚ) * s) := rfl
  rw [hck1, hck2]
  have hAB : |(offset:ℚ) * c|^2 + |(offset:ℚ) * s|^2 = (offset:ℚ)^2 := by
    rw [sq_abs, sq_abs]
    have hr : ((offset:ℚ) * c)^2 + ((offset:ℚ) * s)^2 =
        (offset:ℚ)^2 * (c^2 + s^2) := by ring
    rw [hr, hcs, mul_one]
  have hkey := truncDist_bounds (offset:ℚ)
    |(pyInt ((offset:ℚ) * c) : ℚ)| |(pyInt ((offset:ℚ) * s) : ℚ)|
    |(offset:ℚ) * c| |(offset:ℚ) * s|
    (abs_nonneg _) (abs_nonneg _) (abs_nonneg _) (abs_nonneg _)
    (abs_pyInt_le _) (abs_lt_abs_pyInt_add_one _)
    (abs_pyInt_le _) (abs_lt_abs_pyInt_add_one _)
    hAB (by exact_mod_cast h5') (by exact_mod_cast h30')
  rw [sq_abs, sq_abs] at hkey
  obtain ⟨hup, hlo⟩ := hkey
  exact ⟨by exact_mod_cast hup, by exact_mod_cast hlo⟩

/-- Witness for C4's amended bound at `offset = 5`, `(c, s) = (20/29, 21/29)`. -/
theorem C4_offset_bounds_amended_witness :
    click_min ≤ (5:ℤ) ∧ (5:ℤ) ≤ click_max ∧
    ((20:ℚ)/29)^2 + ((21:ℚ)/29)^2 = 1 ∧
    ((clickOffset 5 ((20:ℚ)/29) ((21:ℚ)/29)).1^2 +
      (clickOffset 5 ((20:ℚ)/29) ((21:ℚ)/29)).2^2 ≤ 900 ∧
    9 < (clickOffset 5 ((20:ℚ)/29) ((21:ℚ)/29)).1^2 +
      (clickOffset 5 ((20:ℚ)/29) ((21:ℚ)/29)).2^2) :=
  ⟨by norm_num [click_min], by norm_num [click_max], by norm_num,
    C4_offset_bounds_amended 5 ((20:ℚ)/29) ((21:ℚ)/29)
      (by norm_num [click_min]) (by norm_num [click_max]) (by norm_num)⟩

/-! ## `AutoClicker.find_template` — template matching

`find_template(device_id, template_name, screen)` checks that the template
artifact exists on disk and is readable by `cv2.imread`, runs
`cv2.matchTemplate` + `cv2.minMaxLoc`, and returns the center of the
best-matching region when `max_val >= self.threshold`; every failure path
(missing file, unreadable file, any exception in the `try` body) returns
`None`. The cv2 results are oracle inputs. -/

/-- Oracle for the filesystem and cv2 calls inside `find_template`:
`templateOnDisk` is `os.path.exists(template_path)`, `templateReadable`
is whether `cv2.imread` returned an image, `maxVal`/`maxLoc` are the
`cv2.minMaxLoc` best score and its top-left corner, `tH`/`tW` are
`template.shape[:2]`, and `cvRaises` is whether anything in the `try`
body raised. -/
structure MatchOracle where
  templateOnDisk : Bool
  templateReadable : Bool
  maxVal : ℚ
  maxLoc : ℕ × ℕ
  tH : ℕ
  tW : ℕ
  cvRaises : Bool

/-- `self.threshold = 0.8`, the configured image-match threshold. -/
def matchThreshold : ℚ := 0.8

/-- `AutoClicker.find_template`: `Some (center)` exactly when the artifact
exists, is readable, nothing raised, and `max_val ≥ threshold`; the center
is `(max_loc[0] + w // 2, max_loc[1] + h // 2)` (Python `//` = `Nat`
division). -/
def find_template (threshold : ℚ) (m : MatchOracle) : Option (ℕ × ℕ) :=
  if m.cvRaises then none
  else if !m.templateOnDisk then none
  else if !m.templateReadable then none
  else if threshold ≤ m.maxVal then
    some (m.maxLoc.1 + m.tW / 2, m.maxLoc.2 + m.tH / 2)
  else none

/-- C8: `find_template` returns a location iff the best correlation score
is ≥ the configured threshold (and the artifact was present and readable
and nothing raised), the returned coordinates are the center of the best
matching region (top-left plus half the template width/height), and every
failure path yields `none` rather than raising. -/
theorem C8_find_template_spec (threshold : ℚ) (m : MatchOracle) :
    (∀ p : ℕ × ℕ, find_template threshold m = some p ↔
      (m.cvRaises = false ∧ m.templateOnDisk = true ∧
       m.templateReadable = true ∧ threshold ≤ m.maxVal ∧
       p = (m.maxLoc.1 + m.tW / 2, m.maxLoc.2 + m.tH / 2))) ∧
    ((m.cvRaises = true ∨ m.templateOnDisk = false ∨
      m.templateReadable = false) → find_template threshold m = none) := by
  constructor
  · intro p
    rcases hr : m.cvRaises with _ | _ <;>
      rcases hd : m.templateOnDisk with _ | _ <;>
        rcases hread : m.templateReadable with _ | _ <;>
          by_cases ht : threshold ≤ m.maxVal <;>
            simp [find_template, hr, hd, hread, ht, eq_comm]
  · intro h
    unfold find_template
    rcases h with h | h | h <;> rw [h] <;> simp

/-- Witness for C8 at a concrete oracle: threshold `0.8`, score `0.9`,
top-left `(10, 20)`, template `40 × 30` wide/high, so the reported center
is `(10 + 30/2, 20 + 40/2) = (25, 40)`. -/
theorem C8_find_template_spec_witness :
    find_template matchThreshold
        ⟨true, true, 0.9, (10, 20), 40, 30, false⟩ = some (25, 40) ∧
    find_template matchThreshold
        ⟨false, true, 0.9, (10, 20), 40, 30, false⟩ = none := by
  have h := C8_find_template_spec matchThreshold
    ⟨true, true, 0.9, (10, 20), 40, 30, false⟩
  have h2 := C8_find_template_spec matchThreshold
    ⟨false, true, 0.9, (10, 20), 40, 30, false⟩
  refine ⟨(h.1 (25, 40)).mpr ⟨rfl, rfl, rfl, by norm_num [matchThreshold], rfl⟩,
    h2.2 (Or.inr (Or.inl rfl))⟩

/-! ## `AutoClicker.execute_adb_command` / `tap` / `random_click`

`execute_adb_command` runs the adb subprocess and `.strip()`s its output;
EVERY exception is caught, printed, and the empty string returned, so the
function never raises. `tap` calls it and returns `True`; its `except`
branch (returning `False`) is unreachable because the callee cannot raise.
`random_click` computes the offset target, calls `tap`, ignores the
result, and returns `True` unconditionally. The subprocess outcome is an
oracle: `.ok raw` is the command output, `.error msg` a raised exception. -/

/-- `AutoClicker.execute_adb_command`: returns the stripped subprocess
output, or `""` when the subprocess raised (the exception is swallowed). -/
def execute_adb_command (outcome : Except String String) : String :=
  match outcome with
  | .ok raw => raw.trim
  | .error _ => ""

/-- `AutoClicker.tap`: issues `shell input tap x y` through
`execute_adb_command` and returns `True`; the `except` branch returning
`False` is dead code because `execute_adb_command` never raises. -/
def tap (outcome : Except String String) : Bool :=
  let _ := execute_adb_command outcome
  true

/-- `AutoClicker.random_click`: computes the randomized tap target, calls
`tap` (ignoring its result), and returns `True`; its own `except` branch
returning `False` is unreachable. Returns the dispatched coordinates
together with the reported Bool. -/
def random_click (outcome : Except String String) (x y : ℤ) (offset : ℤ)
    (c s : ℚ) : (ℤ × ℤ) × Bool :=
  let p := clickTarget x y offset c s
  let _ := tap outcome
  (p, true)

/-- C10: `random_click` reports success no matter what the adb dispatch
did: `execute_adb_command` swallows every exception and returns `""` on
failure, so `tap` always returns `True` and `random_click` always returns
`True` — in particular for a failing adb command. Hence the worker's
`clicked` flag and `last_click_time` update (which branch on this value)
never reflect a failed dispatch. -/
theorem C10_click_success_unconditional (outcome : Except String String)
    (x y offset : ℤ) (c s : ℚ) (msg : String) :
    (random_click outcome x y offset c s).2 = true ∧
    tap outcome = true ∧
    execute_adb_command (Except.error msg) = "" :=
  ⟨rfl, rfl, rfl⟩

/-! ## `AutoClicker.list_devices` — the ADB discovery branch

Lines 1666–1701 of the source: after the port-probing phase, the output of
`adb devices` is parsed line by line; for each entry whose second token is
`device`, the model and brand are fetched with `subprocess.check_output`;
if that raises, BOTH are re-fetched with `os.popen` (whose empty output on
failure yields blank strings); `device_info = f"{brand} {model}"` plus a
MuMu port suffix is appended to the device list. An exception escaping the
fallback (or the `int()` port parse) propagates to the outer `try` of
`list_devices`, which returns `[]`. A non-empty device list is finally
deduplicated by id, keeping first occurrences.

Python string primitives are re-implemented structurally over `List Char`:
`pyStrip` is `str.strip()`, `pySplitWs` is no-argument `str.split()`
(splitting on whitespace runs, discarding empties), `pySplitOn` is
single-separator `str.split(sep)` (keeping empties). -/

/-- Characters of Python `str.strip()`: drop whitespace from both ends. -/
def pyStripChars (l : List Char) : List Char :=
  ((l.dropWhile Char.isWhitespace).reverse.dropWhile Char.isWhitespace).reverse

/-- Python `str.strip()`. -/
def pyStrip (s : String) : String := String.mk (pyStripChars s.data)

/-- Worker for `pySplitWs`; `acc` holds the current token reversed. -/
def pySplitWsAux : List Char → List Char → List String
  | [], acc => if acc.isEmpty then [] else [String.mk acc.reverse]
  | ch :: rest, acc =>
    if ch.isWhitespace then
      if acc.isEmpty then pySplitWsAux rest []
      else String.mk acc.reverse :: pySplitWsAux rest []
    else pySplitWsAux rest (ch :: acc)

/-- Python no-argument `str.split()`: split on whitespace runs, no empty
tokens. -/
def pySplitWs (s : String) : List String := pySplitWsAux s.data []

/-- Worker for `pySplitOn`; `acc` holds the current token reversed. -/
def pySplitOnAux (sep : Char) : List Char → List Char → List String
  | [], acc => [String.mk acc.reverse]
  | ch :: rest, acc =>
    if ch = sep then String.mk acc.reverse :: pySplitOnAux sep rest []
    else pySplitOnAux sep rest (ch :: acc)

/-- Python `str.split(sep)` for a one-character separator: empty tokens
are kept. -/
def pySplitOn (s : String) (sep : Char) : List String := pySplitOnAux sep s.data []

/-- Python `str.startswith(pre)`. -/
def pyStartsWith : List Char → List Char → Bool
  | _, [] => true
  | [], _ :: _ => false
  | a :: as, b :: bs => a == b && pyStartsWith as bs

/-- Python `int()` on the digit-only strings produced by `adb devices`
port fields: `some n` on a non-empty all-digit string, `none` when
`int()` would raise `ValueError`. -/
def pyIntOfDigits (l : List Char) : Option ℕ :=
  if l.isEmpty then none
  else if l.all Char.isDigit then
    some (l.foldl (fun n ch => 10 * n + (ch.toNat - 48)) 0)
  else none

/-- `mumu_ports = [16384, 16416, 16448, 16480, 16512, 16544]` from
`list_devices`. -/
def mumu_ports : List ℕ := [16384, 16416, 16448, 16480, 16512, 16544]

/-- The MuMu-instance suffix appended to `device_info` for endpoints of
the form `127.0.0.1:<port>`; `Except.error` models the `ValueError` of
`int()` on a malformed port (which propagates to the outer handler). -/
def deviceSuffix (device_id : String) : Except Unit String :=
  if pyStartsWith device_id.data "127.0.0.1:".data then
    match pyIntOfDigits ((pySplitOn device_id ':').getD 1 "").data with
    | none => .error ()
    | some port =>
      if port = 16384 then .ok " [MuMu主模拟器]"
      else if mumu_ports.contains port then
        .ok (" [MuMu模拟器-" ++ toString (mumu_ports.indexOf port) ++ "]")
      else .ok (" [MuMu模拟器(端口:" ++ toString port ++ ")]")
  else .ok ""

/-- Oracle for the two identity queries of one endpoint: `primary` is the
`subprocess.check_output` pair `(model, brand)` (raw, pre-`strip()`), or
`none` when it raised; `fallback` is the `os.popen` pair, or `none` when
even the fallback raised (that exception propagates). -/
structure IdOracle where
  primary : Option (String × String)
  fallback : Option (String × String)

/-- Identify one parsed endpoint: fetch `(model, brand)` via the primary
path or, on failure, via the `os.popen` fallback; build
`device_info = f"{brand} {model}"` plus the MuMu suffix. `Except.error`
models an exception that escapes to the outer handler of `list_devices`. -/
def identifyEntry (device_id : String) (o : IdOracle) :
    Except Unit (String × String) := do
  let mb ← match o.primary with
    | some (m, b) => Except.ok (pyStrip m, pyStrip b)
    | none =>
      match o.fallback with
      | some (m, b) => Except.ok (pyStrip m, pyStrip b)
      | none => Except.error ()
  let info := mb.2 ++ " " ++ mb.1
  let sfx ← deviceSuffix device_id
  return (device_id, info ++ sfx)

/-- Parse the `adb devices` output: strip, split into lines, skip the
header line, keep `parts[0]` of every line whose whitespace-split has at
least two tokens with `parts[1] == "device"`. -/
def parseDeviceIds (devices_output : String) : List String :=
  match pySplitOn (pyStrip devices_output) '\n' with
  | [] => []
  | _ :: rest =>
    rest.filterMap fun line =>
      let parts := pySplitWs (pyStrip line)
      if 2 ≤ parts.length && parts.getD 1 "" == "device" then
        some (parts.getD 0 "")
      else none

/-- Identify every parsed endpoint in order; the first escaping exception
aborts the whole traversal (Python `for` loop inside the outer `try`). -/
def identifyDevices (oracle : String → IdOracle) :
    List String → Except Unit (List (String × String))
  | [] => .ok []
  | id :: rest => do
    let entry ← identifyEntry id (oracle id)
    let tail ← identifyDevices oracle rest
    return entry :: tail

/-- The final deduplication of `list_devices`: keep the first occurrence
of each device id (`seen` is the `device_ids` set). -/
def dedupDevices : List (String × String) → List String → List (String × String)
  | [], _ => []
  | (id, info) :: rest, seen =>
    if seen.contains id then dedupDevices rest seen
    else (id, info) :: dedupDevices rest (id :: seen)

/-- The ADB branch of `AutoClicker.list_devices` (reached when the
MuMuManager path produced nothing): parse, identify, deduplicate; any
escaping exception makes the outer handler return `[]`; an empty device
list is returned as-is (the dedup block is inside `if not devices: ...
else:`). -/
def list_devices_adb (devices_output : String) (oracle : String → IdOracle) :
    List (String × String) :=
  match identifyDevices oracle (parseDeviceIds devices_output) with
  | .error _ => []
  | .ok devices =>
    if devices.isEmpty then devices else dedupDevices devices []

/-- C6 counterexample: an endpoint (`127.0.0.1:16416`) whose identity
queries raise in the primary path and whose `os.popen` fallback produces
empty output is NOT dropped: it is returned with blank brand/model fields
(`device_info = " "` plus the MuMu suffix), alongside the normally
identified endpoint. This refutes "dropped from the returned device list —
never included with blank identity fields". -/
theorem C6_blank_identity_counterexample :
    list_devices_adb
      "List of devices attached\n127.0.0.1:16416\tdevice\nemulator-5554\tdevice"
      (fun id => if id = "127.0.0.1:16416" then ⟨none, some ("", "")⟩
        else ⟨some ("Pixel", "Google"), none⟩) =
    [("127.0.0.1:16416", "  [MuMu模拟器-1]"), ("emulator-5554", "Google Pixel")] := by
  decide

/-- C6 amended: identification failure never drops an individual endpoint.
Whenever, for every parsed endpoint, the primary query pair or the
`os.popen` fallback pair is available (and the port suffix parse does not
raise), identification succeeds and returns exactly one record per parsed
endpoint, in order — endpoints whose primary queries failed are included
with the (possibly blank) fallback identity rather than dropped. One
endpoint's primary-query failure therefore does not prevent the other
endpoints from being identified; only an exception escaping the fallback
itself aborts the whole discovery (returning `[]`). -/
theorem C6_identity_failure_never_drops (oracle : String → IdOracle)
    (ids : List String)
    (hok : ∀ id ∈ ids,
      ((oracle id).primary ≠ none ∨ (oracle id).fallback ≠ none) ∧
      (deviceSuffix id).isOk = true) :
    ∃ l, identifyDevices oracle ids = .ok l ∧ l.map Prod.fst = ids := by
  induction ids with
  | nil => exact ⟨[], rfl, rfl⟩
  | cons id rest ih =>
    obtain ⟨hq, hs⟩ := hok id (List.mem_cons_self id rest)
    obtain ⟨tl, htl, hmap⟩ := ih fun i hi => hok i (List.mem_cons_of_mem id hi)
    obtain ⟨sfx, hsfx⟩ : ∃ sfx, deviceSuffix id = .ok sfx := by
      cases hd : deviceSuffix id with
      | ok s => exact ⟨s, rfl⟩
      | error e => rw [hd] at hs; exact absurd hs (by simp [Except.isOk, Except.toBool])
    have hentry : ∃ info, identifyEntry id (oracle id) = .ok (id, info) := by
      cases hp : (oracle id).primary with
      | some mb =>
        refine ⟨pyStrip mb.2 ++ " " ++ pyStrip mb.1 ++ sfx, ?_⟩
        simp only [identifyEntry, hp, hsfx]
        rfl
      | none =>
        cases hf : (oracle id).fallback with
        | some mb =>
          refine ⟨pyStrip mb.2 ++ " " ++ pyStrip mb.1 ++ sfx, ?_⟩
          simp only [identifyEntry, hp, hf, hsfx]
          rfl
        | none =>
          rw [hp] at hq
          rw [hf] at hq
          simp at hq
    obtain ⟨info, hinfo⟩ := hentry
    refine ⟨(id, info) :: tl, ?_, ?_⟩
    · simp only [identifyDevices, hinfo, htl]
      rfl
    · simp [hmap]

/-- Witness for the amended C6 theorem at the counterexample input: the
endpoint with failed primary queries is kept (with blank identity), the
other endpoint follows, in order. -/
theorem C6_identity_failure_never_drops_witness :
    ∃ l, identifyDevices
      (fun id => if id = "127.0.0.1:16416" then ⟨none, some ("", "")⟩
        else ⟨some ("Pixel", "Google"), none⟩)
      (parseDeviceIds
        "List of devices attached\n127.0.0.1:16416\tdevice\nemulator-5554\tdevice") =
      .ok l ∧
    l.map Prod.fst = parseDeviceIds
      "List of devices attached\n127.0.0.1:16416\tdevice\nemulator-5554\tdevice" :=
  C6_identity_failure_never_drops _ _ (by decide)

/-! ## Worker supervision — `AutoClickUI.start_device` / `stop_device`

`start_device(device_id, ...)` first calls `stop_device(device_id)` (which
sets the registered stop event and `join`s the old thread for at most
0.1 s — a best-effort wait that does NOT guarantee the old thread has
exited), then creates FRESH stop/pause `threading.Event`s, overwrites the
registry entries `self.stop_events[device_id]` /
`self.device_threads[device_id]`, and spawns a new thread. The superseded
thread still holds a reference to its own (now set) stop event and exits
cooperatively at its next signal check.

The model: stop events are a growing list of Booleans (`true` = set),
the registry maps a device id to its CURRENT stop-event index, and
`threads` records every spawned worker with the event it holds and
whether its thread is still alive. A worker observes its stop signal
(`observeStop`) at some scheduler-chosen later point — exactly the
cooperative-cancellation semantics of the source — or exits on its own
(`exitLoop`, duration expiry / abort break). -/

/-- One spawned worker thread: its device, the stop-event index passed to
it at creation, and whether the thread is still running. -/
structure Worker where
  dev : ℕ
  evt : ℕ
  alive : Bool

/-- Supervisor state: the pool of stop events (`true` = set), the current
registry `self.stop_events` (device ↦ its current event), and every
spawned thread. -/
structure SupState where
  events : List Bool
  registry : ℕ → Option ℕ
  threads : List Worker

/-- `AutoClickUI.stop_device`: set the registered stop event (the
`join(0.1)` is a bounded best-effort wait and changes no state). -/
def stop_device (d : ℕ) (st : SupState) : SupState :=
  match st.registry d with
  | some e => { st with events := st.events.set e true }
  | none => st

/-- `AutoClickUI.start_device`: stop the previous session, then create a
fresh (unset) stop event, overwrite the registry entry, and spawn a new
live worker bound to the fresh event. -/
def start_device (d : ℕ) (st : SupState) : SupState :=
  { events := (stop_device d st).events ++ [false]
    registry := fun x =>
      if x = d then some (stop_device d st).events.length
      else (stop_device d st).registry x
    threads := (stop_device d st).threads ++
      [⟨d, (stop_device d st).events.length, true⟩] }

/-- A worker's cooperative stop check (`while not stop_event.is_set()`):
thread `i` exits iff the stop event it was created with is set. -/
def observeStop (i : ℕ) (st : SupState) : SupState :=
  match st.threads.get? i with
  | some w =>
    if st.events.getD w.evt false then
      { st with threads := st.threads.set i { w with alive := false } }
    else st
  | none => st

/-- A worker's loop exiting for any other reason (planned duration
elapsed, abort-trigger `break`): the thread simply ends. -/
def exitLoop (i : ℕ) (st : SupState) : SupState :=
  match st.threads.get? i with
  | some w => { st with threads := st.threads.set i { w with alive := false } }
  | none => st

/-- The observable supervisor/scheduler events. -/
inductive SupOp where
  | start : ℕ → SupOp
  | stop : ℕ → SupOp
  | observe : ℕ → SupOp
  | exitRun : ℕ → SupOp

def supStep (st : SupState) : SupOp → SupState
  | .start d => start_device d st
  | .stop d => stop_device d st
  | .observe i => observeStop i st
  | .exitRun i => exitLoop i st

def initSup : SupState := ⟨[], fun _ => none, []⟩

def runSup (ops : List SupOp) : SupState := ops.foldl supStep initSup

/-- Number of live worker threads for device `d`. -/
def liveThreads (d : ℕ) (st : SupState) : ℕ :=
  (st.threads.filter (fun w => w.alive && w.dev == d)).length

/-- Number of live worker threads for device `d` whose stop event is not
set (sessions that are live and have not been told to terminate). -/
def liveUnsignaled (d : ℕ) (st : SupState) : ℕ :=
  (st.threads.filter
    (fun w => w.alive && w.dev == d && !(st.events.getD w.evt false))).length

/-- C1 counterexample: `start(0)` while the first session's worker is
still inside a sleep (so it has not yet observed its stop signal) leaves
TWO live worker threads for device 0 at the observed instant after the
second `start` returns — `stop_device`'s `join(0.1)` is best-effort and
does not terminate the prior session before the new one is installed.
This refutes "at most one live worker session per deviceId at any
observed instant". -/
theorem C1_at_most_one_counterexample :
    liveThreads 0 (runSup [SupOp.start 0, SupOp.start 0]) = 2 := by decide

theorem getD_set_eq_true (l : List Bool) (e : ℕ) (he : e < l.length) :
    (l.set e true).getD e false = true := by
  induction l generalizing e with
  | nil => simp at he
  | cons x t ih =>
    cases e with
    | zero => simp [List.set]
    | succ n =>
      simp only [List.set, List.getD_cons_succ]
      exact ih n (by simpa using he)

theorem getD_set_ne (l : List Bool) (e i : ℕ) (b : Bool) (h : i ≠ e) :
    (l.set e b).getD i false = l.getD i false := by
  induction l generalizing e i with
  | nil => simp [List.set]
  | cons x t ih =>
    cases e with
    | zero =>
      cases i with
      | zero => exact absurd rfl h
      | succ j => simp [List.set]
    | succ n =>
      cases i with
      | zero => simp [List.set]
      | succ j =>
        simp only [List.set, List.getD_cons_succ]
        exact ih n j (fun hc => h (by rw [hc]))

theorem getD_append_left (l l' : List Bool) (i : ℕ) (h : i < l.length) :
    ((l ++ l').getD i false) = l.getD i false := by
  induction l generalizing i with
  | nil => simp at h
  | cons x t ih =>
    cases i with
    | zero => simp
    | succ j =>
      simp only [List.cons_append, List.getD_cons_succ]
      exact ih j (by simpa using h)

theorem mem_of_mem_set {α : Type} (l : List α) (i : ℕ) (b a : α)
    (h : a ∈ l.set i b) : a ∈ l ∨ a = b := by
  induction l generalizing i with
  | nil => simp [List.set] at h
  | cons x t ih =>
    cases i with
    | zero =>
      rcases List.mem_cons.mp h with h1 | h1
      · exact Or.inr h1
      · exact Or.inl (List.mem_cons_of_mem _ h1)
    | succ j =>
      rcases List.mem_cons.mp h with h1 | h1
      · exact Or.inl (h1 ▸ List.mem_cons_self _ _)
      · rcases ih j h1 with h2 | h2
        · exact Or.inl (List.mem_cons_of_mem _ h2)
        · exact Or.inr h2

theorem map_set {α β : Type} (f : α → β) (l : List α) (i : ℕ) (b : α) :
    (l.set i b).map f = (l.map f).set i (f b) := by
  induction l generalizing i with
  | nil => simp [List.set]
  | cons x t ih =>
    cases i with
    | zero => simp [List.set]
    | succ j => simp [List.set, ih j]

theorem set_get?_self {α : Type} (l : List α) (i : ℕ) (a : α)
    (h : l.get? i = some a) : l.set i a = l := by
  induction l generalizing i with
  | nil => simp at h
  | cons x t ih =>
    cases i with
    | zero =>
      simp only [List.get?] at h
      injection h with h
      simp [List.set, h]
    | succ j =>
      simp only [List.get?] at h
      simp [List.set, ih j h]

theorem filter_length_le_one {α : Type} (p : α → Bool) (l : List α)
    (h : l.Pairwise (fun a b => ¬(p a = true ∧ p b = true))) :
    (l.filter p).length ≤ 1 := by
  induction l with
  | nil => simp
  | cons x t ih =>
    rcases List.pairwise_cons.mp h with ⟨hx, ht⟩
    by_cases hp : p x = true
    · have : t.filter p = [] := by
        apply List.filter_eq_nil.mpr
        intro a ha hpa
        exact hx a ha ⟨hp, hpa⟩
      simp [List.filter_cons, hp, this]
    · simp only [List.filter_cons]
      rw [if_neg hp]
      exact ih ht

/-- The supervision invariant maintained by every reachable state:
every thread's event exists, events are handed out in strictly
increasing order (so distinct threads hold distinct events), every live
not-stop-signaled thread holds the CURRENT registry event of its device,
and the registry only points at existing events. -/
def SupInv (st : SupState) : Prop :=
  (∀ w ∈ st.threads, w.evt < st.events.length) ∧
  (st.threads.map Worker.evt).Pairwise (· < ·) ∧
  (∀ w ∈ st.threads, w.alive = true → st.events.getD w.evt false = false →
    st.registry w.dev = some w.evt) ∧
  (∀ d e, st.registry d = some e → e < st.events.length)

theorem supInv_init : SupInv initSup := by
  refine ⟨?_, ?_, ?_, ?_⟩ <;> simp [initSup]

theorem supInv_stop (d : ℕ) (st : SupState) (h : SupInv st) :
    SupInv (stop_device d st) := by
  obtain ⟨h1, h2, h3, h4⟩ := h
  unfold stop_device
  cases hr : st.registry d with
  | none => exact ⟨h1, h2, h3, h4⟩
  | some e =>
    have he : e < st.events.length := h4 d e hr
    refine ⟨?_, ?_, ?_, ?_⟩
    · intro w hw
      simpa [List.length_set] using h1 w hw
    · exact h2
    · intro w hw halive hun
      by_cases hwe : w.evt = e
      · exfalso
        rw [hwe] at hun
        rw [getD_set_eq_true st.events e he] at hun
        exact Bool.true_eq_false.mp hun
      · rw [getD_set_ne st.events e w.evt true hwe] at hun
        exact h3 w hw halive hun
    · intro d' e' hr'
      simpa [List.length_set] using h4 d' e' hr'

theorem stop_device_threads (d : ℕ) (st : SupState) :
    (stop_device d st).threads = st.threads := by
  unfold stop_device
  cases st.registry d <;> rfl

theorem stop_device_registry (d : ℕ) (st : SupState) :
    (stop_device d st).registry = st.registry := by
  unfold stop_device
  cases st.registry d <;> rfl

theorem stop_device_events_of_some (d : ℕ) (st : SupState) (e : ℕ)
    (hr : st.registry d = some e) :
    (stop_device d st).events = st.events.set e true := by
  unfold stop_device
  rw [hr]

theorem stop_device_events_length (d : ℕ) (st : SupState) :
    (stop_device d st).events.length = st.events.length := by
  unfold stop_device
  cases st.registry d <;> simp [List.length_set]

theorem supInv_start (d : ℕ) (st : SupState) (h : SupInv st) :
    SupInv (start_device d st) := by
  have h' := supInv_stop d st h
  obtain ⟨h1, h2, h3, h4⟩ := h'
  unfold start_device
  refine ⟨?_, ?_, ?_, ?_⟩
  · intro w hw
    simp only [List.length_append, List.length_singleton]
    rcases List.mem_append.mp hw with hw1 | hw1
    · exact Nat.lt_succ_of_lt (h1 w hw1)
    · simp only [List.mem_singleton] at hw1
      rw [hw1]
      exact Nat.lt_succ_self _
  · simp only [List.map_append]
    apply List.pairwise_append.mpr
    refine ⟨h2, by simp, ?_⟩
    intro a ha b hb
    simp only [List.map_cons, List.map_nil, List.mem_singleton] at hb
    rw [hb]
    rcases List.mem_map.mp ha with ⟨w, hw, hwe⟩
    rw [← hwe]
    exact h1 w hw
  · intro w hw halive hun
    dsimp only at hun ⊢
    rcases List.mem_append.mp hw with hw1 | hw1
    · have hlt := h1 w hw1
      rw [getD_append_left _ [false] w.evt hlt] at hun
      have hreg := h3 w hw1 halive hun
      by_cases hdev : w.dev = d
      · exfalso
        have hw_st : w ∈ st.threads := by
          rw [← stop_device_threads d st]
          exact hw1
        have hreg' : st.registry d = some w.evt := by
          rw [stop_device_registry d st, hdev] at hreg
          exact hreg
        have hev : (stop_device d st).events = st.events.set w.evt true :=
          stop_device_events_of_some d st w.evt hreg'
        have hwlt : w.evt < st.events.length := h.1 w hw_st
        rw [hev, getD_set_eq_true st.events w.evt hwlt] at hun
        exact Bool.true_eq_false.mp hun
      · rw [if_neg hdev]
        exact hreg
    · simp only [List.mem_singleton] at hw1
      rw [hw1]
      simp
  · intro d' e' hr'
    dsimp only at hr'
    simp only [List.length_append, List.length_singleton]
    by_cases hd : d' = d
    · rw [if_pos hd] at hr'
      injection hr' with hh
      rw [← hh]
      exact Nat.lt_succ_self _
    · rw [if_neg hd] at hr'
      exact Nat.lt_succ_of_lt (h4 d' e' hr')

theorem supInv_kill (i : ℕ) (st : SupState) (w : Worker)
    (hget : st.threads.get? i = some w) (h : SupInv st) :
    SupInv { st with threads := st.threads.set i { w with alive := false } } := by
  obtain ⟨h1, h2, h3, h4⟩ := h
  have hmem : w ∈ st.threads := List.get?_mem hget
  refine ⟨?_, ?_, ?_, ?_⟩
  · intro w' hw'
    rcases mem_of_mem_set _ _ _ _ hw' with hw1 | hw1
    · exact h1 w' hw1
    · rw [hw1]
      exact h1 w hmem
  · have hmap : (st.threads.set i { w with alive := false }).map Worker.evt =
        st.threads.map Worker.evt := by
      rw [map_set]
      apply set_get?_self
      rw [List.get?_map, hget]
      rfl
    rw [hmap]
    exact h2
  · intro w' hw' halive hun
    rcases mem_of_mem_set _ _ _ _ hw' with hw1 | hw1
    · exact h3 w' hw1 halive hun
    · exfalso
      rw [hw1] at halive
      exact Bool.false_ne_true halive
  · exact h4

theorem supInv_observe (i : ℕ) (st : SupState) (h : SupInv st) :
    SupInv (observeStop i st) := by
  unfold observeStop
  cases hget : st.threads.get? i with
  | none => exact h
  | some w =>
    dsimp only
    by_cases hev : st.events.getD w.evt false = true
    · rw [if_pos hev]
      exact supInv_kill i st w hget h
    · rw [if_neg hev]
      exact h

theorem supInv_exit (i : ℕ) (st : SupState) (h : SupInv st) :
    SupInv (exitLoop i st) := by
  unfold exitLoop
  cases hget : st.threads.get? i with
  | none => exact h
  | some w =>
    dsimp only
    exact supInv_kill i st w hget h

theorem supInv_run (ops : List SupOp) : SupInv (runSup ops) := by
  suffices hgen : ∀ st, SupInv st → SupInv (ops.foldl supStep st) by
    exact hgen initSup supInv_init
  induction ops with
  | nil => intro st h; exact h
  | cons op rest ih =>
    intro st h
    rw [List.foldl_cons]
    apply ih
    cases op with
    | start d => exact supInv_start d st h
    | stop d => exact supInv_stop d st h
    | observe i => exact supInv_observe i st h
    | exitRun i => exact supInv_exit i st h

/-- C1 amended: after ANY sequence of supervisor/scheduler events, each
device has at most one live worker session whose stop signal is unset.
`start_device` signals the prior session's stop event before installing
the new one, so the prior session can outlive the `join(0.1)` only in the
already-told-to-terminate state, and it exits at its next signal check. -/
theorem C1_at_most_one_unsignaled (ops : List SupOp) (d : ℕ) :
    liveUnsignaled d (runSup ops) ≤ 1 := by
  obtain ⟨h1, h2, h3, h4⟩ := supInv_run ops
  set st := runSup ops with hst
  unfold liveUnsignaled
  apply filter_length_le_one
  have hpw : st.threads.Pairwise (fun a b => a.evt < b.evt) :=
    (List.pairwise_map).mp h2
  have himp : ∀ a ∈ st.threads, ∀ b ∈ st.threads, a.evt < b.evt →
      ¬((a.alive && a.dev == d && !(st.events.getD a.evt false)) = true ∧
        (b.alive && b.dev == d && !(st.events.getD b.evt false)) = true) := by
    intro a ha b hb hlt ⟨hpa, hpb⟩
    simp only [Bool.and_eq_true, beq_iff_eq, Bool.not_eq_true'] at hpa hpb
    have hra := h3 a ha hpa.1.1 hpa.2
    have hrb := h3 b hb hpb.1.1 hpb.2
    rw [hpa.1.2] at hra
    rw [hpb.1.2] at hrb
    rw [hra] at hrb
    injection hrb with hh
    rw [hh] at hlt
    exact lt_irrefl _ hlt
  have := List.Pairwise.imp_of_mem (fun {a b} ha hb hlt => himp a ha b hb hlt) hpw
  exact this

/-- Witness for the amended C1 theorem at the counterexample trace: after
`start 0; start 0` device 0 has (exactly, hence at most) one live
unsignaled session even though two threads are momentarily live. -/
theorem C1_at_most_one_unsignaled_witness :
    liveUnsignaled 0 (runSup [SupOp.start 0, SupOp.start 0]) ≤ 1 :=
  C1_at_most_one_unsignaled [SupOp.start 0, SupOp.start 0] 0

/-! ## The per-device worker loop — `AutoClickUI.device_thread_func`

One loop iteration of the source, in order:
check the `while` condition (`not stop_event.is_set() and time.time() <
end_time`); if `pause_event.is_set()`, sleep 1 s and `continue`;
otherwise, inside a `try`: read `current_time`, compute the verbose-log
flag (`> 10` s since `last_log_time`), capture the screen (on failure log
an error, sleep 1 s, `continue`); check the "lose" template (on a match
log a warning, set the pause event, put an extra UI-queue message, and
`break` — leaving the `while` loop entirely); likewise "notupo"; check
the 1.0 s global click cooldown (sleep 0.1 s and `continue` when inside
it); then iterate all template names: on the first match click via
`random_click` — `button10` immediately (followed by a 0.5 s sleep and a
"notupo" re-check that sets the pause event on a hit), `button7` after a
`uniform(8, 10)` pre-wait, any other button immediately, the latter two
followed by a `random_delay(1, 3)` — recording
`last_click_time = current_time` (read BEFORE any pre-wait) and breaking
out of the template loop. If nothing was clicked, sleep 0.5 s. Any
exception in the `try` body logs an error and sleeps 2 s.

Time is rational and advances exactly by the `time.sleep` amounts; all
other operations are instantaneous. Template-match results, random draws
and external signal arrivals are a per-iteration environment. The
post-loop "thread done" logs are not modelled (no claim concerns them). -/

inductive Level where
  | info | warning | error
deriving DecidableEq

/-- The log messages the loop can emit (`status_logger.log` calls and the
two direct `message_queue.put` duplicates of the abort warnings). -/
inductive Msg where
  | threadStart
  | captureFail
  | loseDetected
  | losePausedNotice
  | notupoDetected
  | notupoPausedNotice
  | foundButton (name : String)
  | clickedButton (name : String)
  | b7WaitNotice
  | b10RecheckNotupo
  | waitingTargets
  | iterFailure
deriving DecidableEq

/-- Per-iteration environment: external signal arrivals, collaborator
outcomes and random draws for one pass of the `while` body. -/
structure IterEnv where
  stopSignal : Bool
  pauseSignal : Option Bool
  captureOk : Bool
  loseMatch : Bool
  notupoMatch : Bool
  templates : List (String × Option (ℤ × ℤ))
  b7wait : ℚ
  postDelay : ℚ
  adb : Except String String
  offs : ℤ
  offC : ℚ
  offS : ℚ
  recheckCaptureOk : Bool
  recheckNotupo : Bool
  iterFails : Bool

/-- Worker-loop state: the clock, the fixed deadline, the two rate
limiters (`last_log_time`, `last_click_time`), the signal flags, whether
the `while` loop has exited, the dispatch times of all clicks so far, the
`StatusLogger` history and the raw UI message queue. -/
structure WState where
  now : ℚ
  endTime : ℚ
  lastLogTime : ℚ
  lastClick : ℚ
  paused : Bool
  stopped : Bool
  exited : Bool
  clicks : List ℚ
  history : List (Msg × Level)
  uiQueue : List (Msg × Level)

/-- `status_logger.log`: appends to the history AND enqueues a UI event. -/
def wlog (s : WState) (m : Msg) (lv : Level) : WState :=
  { s with history := s.history ++ [(m, lv)],
           uiQueue := s.uiQueue ++ [(m, lv)] }

/-- A direct `message_queue.put` (no history entry). -/
def wqueue (s : WState) (m : Msg) (lv : Level) : WState :=
  { s with uiQueue := s.uiQueue ++ [(m, lv)] }

/-- `click_cooldown = 1.0` — the global per-device click cooldown. -/
def click_cooldown : ℚ := 1

/-- The `for template_name in get_template_names()` loop: first match
wins; returns the updated state and the `clicked` flag. `curT` is the
iteration's `current_time`, `v` its verbose-log flag. -/
def forLoop (e : IterEnv) (curT : ℚ) (v : Bool) :
    WState → List (String × Option (ℤ × ℤ)) → WState × Bool
  | s, [] => (s, false)
  | s, (name, res) :: rest =>
    if s.stopped = true ∨ s.paused = true then (s, false)
    else
      match res with
      | none => forLoop e curT v s rest
      | some (x, y) =>
        let s1 := if v = true then
            { wlog s (Msg.foundButton name) Level.info with lastLogTime := curT }
          else s
        if name = "button10" then
          if (random_click e.adb x y e.offs e.offC e.offS).2 = true then
            let s2 := { wlog s1 (Msg.clickedButton name) Level.info with
              clicks := s1.clicks ++ [s1.now], lastClick := curT,
              now := s1.now + 0.5 }
            if e.recheckCaptureOk = true ∧ e.recheckNotupo = true then
              ({ wqueue (wlog s2 Msg.b10RecheckNotupo Level.warning)
                  Msg.notupoPausedNotice Level.warning with paused := true },
                true)
            else (s2, true)
          else forLoop e curT v s1 rest
        else if name = "button7" then
          let s1b := { wlog s1 Msg.b7WaitNotice Level.info with
            now := s1.now + e.b7wait }
          if (random_click e.adb x y e.offs e.offC e.offS).2 = true then
            ({ wlog s1b (Msg.clickedButton name) Level.info with
              clicks := s1b.clicks ++ [s1b.now], lastClick := curT,
              now := s1b.now + e.postDelay }, true)
          else forLoop e curT v s1b rest
        else
          if (random_click e.adb x y e.offs e.offC e.offS).2 = true then
            ({ wlog s1 (Msg.clickedButton name) Level.info with
              clicks := s1.clicks ++ [s1.now], lastClick := curT,
              now := s1.now + e.postDelay }, true)
          else forLoop e curT v s1 rest

/-- One full pass of the `while` body of `device_thread_func` (including
the `while`-condition check itself and the pause branch). -/
def step (s : WState) (e : IterEnv) : WState :=
  if s.exited = true then s
  else
    let s0 := { s with
      stopped := s.stopped || e.stopSignal,
      paused := match e.pauseSignal with | some b => b | none => s.paused }
    if s0.stopped = true ∨ s0.endTime ≤ s0.now then { s0 with exited := true }
    else if s0.paused = true then { s0 with now := s0.now + 1 }
    else if e.iterFails = true then
      { wlog s0 Msg.iterFailure Level.error with now := s0.now + 2 }
    else
      let curT := s0.now
      let v := decide (10 < curT - s0.lastLogTime)
      if e.captureOk = false then
        { wlog s0 Msg.captureFail Level.error with now := s0.now + 1 }
      else if e.loseMatch = true then
        { wqueue (wlog s0 Msg.loseDetected Level.warning)
            Msg.losePausedNotice Level.warning with
          paused := true, exited := true }
      else if e.notupoMatch = true then
        { wqueue (wlog s0 Msg.notupoDetected Level.warning)
            Msg.notupoPausedNotice Level.warning with
          paused := true, exited := true }
      else if curT - s0.lastClick < click_cooldown then
        { s0 with now := s0.now + 0.1 }
      else
        let r := forLoop e curT v s0 e.templates
        if r.2 = true then r.1
        else if v = true then
          { wlog r.1 Msg.waitingTargets Level.info with
            lastLogTime := curT, now := r.1.now + 0.5 }
        else { r.1 with now := r.1.now + 0.5 }

/-- The worker state at thread start (`device_thread_func` before the
loop): `end_time = time.time() + duration * 60`, `last_log_time = 0`,
`last_click_time = 0`, and the "thread started" info log. -/
def initW (t0 dur : ℚ) : WState :=
  { now := t0, endTime := t0 + dur * 60, lastLogTime := 0, lastClick := 0,
    paused := false, stopped := false, exited := false, clicks := [],
    history := [(Msg.threadStart, Level.info)],
    uiQueue := [(Msg.threadStart, Level.info)] }

/-- Running the worker loop through a sequence of iteration
environments. -/
def runW (s : WState) (es : List IterEnv) : WState := es.foldl step s

/-- The ranges of the random draws used inside one iteration:
`random.uniform(8, 10)` for the button7 pre-wait and
`random_delay(template, 1, 3)` for the post-click delay. -/
def EnvOK (e : IterEnv) : Prop :=
  8 ≤ e.b7wait ∧ e.b7wait ≤ 10 ∧ 1 ≤ e.postDelay ∧ e.postDelay ≤ 3

/-- Consecutive dispatch times separated by at least the global click
cooldown. -/
def Sep1 (l : List ℚ) : Prop := l.Chain' (fun a b => a + click_cooldown ≤ b)

/-- The cooldown invariant carried through the loop: recorded clicks are
cooldown-separated, `last_click_time` never lies in the future, and the
most recent dispatch is at least a cooldown before whichever of
`last_click_time + cooldown` / the current clock comes later (the next
click can happen no earlier than both). -/
def ClickInv (s : WState) : Prop :=
  Sep1 s.clicks ∧ s.lastClick ≤ s.now ∧
  (∀ c, s.clicks.getLast? = some c →
    c + click_cooldown ≤ max (s.lastClick + click_cooldown) s.now)

theorem sep1_append (l : List ℚ) (c : ℚ) (h : Sep1 l)
    (hlast : ∀ x, l.getLast? = some x → x + click_cooldown ≤ c) :
    Sep1 (l ++ [c]) := by
  unfold Sep1 at h ⊢
  apply List.chain'_append.mpr
  refine ⟨h, List.chain'_singleton c, ?_⟩
  intro x hx y hy
  simp only [List.head?_cons, Option.mem_def, Option.some.injEq] at hy
  rw [← hy]
  exact hlast x (Option.mem_def.mp hx)

theorem clickInv_mono (s s' : WState) (h : ClickInv s)
    (hclicks : s'.clicks = s.clicks) (hlast : s'.lastClick = s.lastClick)
    (hnow : s.now ≤ s'.now) : ClickInv s' := by
  obtain ⟨h1, h2, h3⟩ := h
  refine ⟨hclicks ▸ h1, ?_, ?_⟩
  · rw [hlast]
    exact le_trans h2 hnow
  · intro c hc
    rw [hclicks] at hc
    rw [hlast]
    exact le_trans (h3 c hc) (max_le_max le_rfl hnow)

theorem random_click_snd (o : Except String String) (x y off : ℤ) (c s : ℚ) :
    (random_click o x y off c s).2 = true := rfl

theorem forLoop_clickInv (e : IterEnv) (curT : ℚ) (v : Bool) (hE : EnvOK e) :
    ∀ (ts : List (String × Option (ℤ × ℤ))) (s : WState), ClickInv s →
      s.now = curT → s.lastClick + click_cooldown ≤ curT →
      ClickInv (forLoop e curT v s ts).1 := by
  obtain ⟨hw8, hw10, hd1, hd3⟩ := hE
  have hcd : click_cooldown = (1:ℚ) := rfl
  intro ts
  induction ts with
  | nil =>
    intro s h hnow hcool
    simp only [forLoop]
    exact h
  | cons head rest ih =>
    obtain ⟨name, res⟩ := head
    intro s h hnow hcool
    simp only [forLoop]
    by_cases hsp : s.stopped = true ∨ s.paused = true
    · rw [if_pos hsp]
      exact h
    rw [if_neg hsp]
    cases res with
    | none =>
      dsimp only
      exact ih s h hnow hcool
    | some xy =>
      obtain ⟨x, y⟩ := xy
      dsimp only
      obtain ⟨hSep, hLN, hLast⟩ := h
      set s1 := (if v = true then
          { wlog s (Msg.foundButton name) Level.info with lastLogTime := curT }
        else s) with hs1
      have hc1 : s1.clicks = s.clicks := by
        rw [hs1]; split <;> simp [wlog]
      have hl1 : s1.lastClick = s.lastClick := by
        rw [hs1]; split <;> simp [wlog]
      have hn1 : s1.now = s.now := by
        rw [hs1]; split <;> simp [wlog]
      have hmax : ∀ x', s.clicks.getLast? = some x' → x' + click_cooldown ≤ curT := by
        intro x' hx'
        refine le_trans (hLast x' hx') (max_le hcool (le_of_eq hnow))
      by_cases h10 : name = "button10"
      · rw [if_pos h10, if_pos (random_click_snd e.adb x y e.offs e.offC e.offS)]
        have hinv2 : ClickInv { wlog s1 (Msg.clickedButton name) Level.info with
            clicks := s1.clicks ++ [s1.now], lastClick := curT,
            now := s1.now + 0.5 } := by
          refine ⟨?_, ?_, ?_⟩
          · simp only [wlog]
            rw [hc1, hn1, hnow]
            exact sep1_append s.clicks curT hSep hmax
          · simp only [wlog]
            rw [hn1, hnow]
            norm_num
          · intro c hc
            simp only [wlog] at hc ⊢
            rw [hc1, hn1, hnow, List.getLast?_concat] at hc
            injection hc with hc
            rw [← hc, hn1, hnow, hcd]
            exact le_max_left _ _
        by_cases hrc : e.recheckCaptureOk = true ∧ e.recheckNotupo = true
        · rw [if_pos hrc]
          dsimp only
          refine clickInv_mono _ _ hinv2 ?_ ?_ ?_ <;> simp [wlog, wqueue]
        · rw [if_neg hrc]
          exact hinv2
      rw [if_neg h10]
      by_cases h7 : name = "button7"
      · rw [if_pos h7, if_pos (random_click_snd e.adb x y e.offs e.offC e.offS)]
        refine ⟨?_, ?_, ?_⟩
        · simp only [wlog]
          rw [hc1, hn1, hnow]
          refine sep1_append s.clicks (curT + e.b7wait) hSep ?_
          intro x' hx'
          have := hmax x' hx'
          linarith
        · simp only [wlog]
          rw [hn1, hnow]
          linarith
        · intro c hc
          simp only [wlog] at hc ⊢
          rw [hc1, hn1, hnow, List.getLast?_concat] at hc
          injection hc with hc
          rw [← hc, hn1, hnow, hcd]
          refine le_trans ?_ (le_max_right _ _)
          linarith
      · rw [if_neg h7, if_pos (random_click_snd e.adb x y e.offs e.offC e.offS)]
        refine ⟨?_, ?_, ?_⟩
        · simp only [wlog]
          rw [hc1, hn1, hnow]
          exact sep1_append s.clicks curT hSep hmax
        · simp only [wlog]
          rw [hn1, hnow]
          linarith
        · intro c hc
          simp only [wlog] at hc ⊢
          rw [hc1, hn1, hnow, List.getLast?_concat] at hc
          injection hc with hc
          rw [← hc, hn1, hnow, hcd]
          refine le_trans ?_ (le_max_right _ _)
          linarith

theorem step_clickInv (s : WState) (e : IterEnv) (hE : EnvOK e)
    (h : ClickInv s) : ClickInv (step s e) := by
  have hcd : click_cooldown = (1:ℚ) := rfl
  unfold step
  by_cases hex : s.exited = true
  · rw [if_pos hex]
    exact h
  rw [if_neg hex]
  dsimp only
  set s0 : WState := { s with
    stopped := s.stopped || e.stopSignal,
    paused := match e.pauseSignal with | some b => b | none => s.paused }
    with hs0
  have h0 : ClickInv s0 := by
    refine clickInv_mono s s0 h ?_ ?_ ?_ <;> rw [hs0]
  by_cases h1 : s0.stopped = true ∨ s0.endTime ≤ s0.now
  · rw [if_pos h1]
    exact clickInv_mono s0 _ h0 rfl rfl le_rfl
  rw [if_neg h1]
  by_cases h2 : s0.paused = true
  · rw [if_pos h2]
    exact clickInv_mono s0 _ h0 rfl rfl (by dsimp only; linarith)
  rw [if_neg h2]
  by_cases h3 : e.iterFails = true
  · rw [if_pos h3]
    refine clickInv_mono s0 _ h0 ?_ ?_ ?_ <;> simp [wlog] <;> linarith
  rw [if_neg h3]
  by_cases h4 : e.captureOk = false
  · rw [if_pos h4]
    refine clickInv_mono s0 _ h0 ?_ ?_ ?_ <;> simp [wlog] <;> linarith
  rw [if_neg h4]
  by_cases h5 : e.loseMatch = true
  · rw [if_pos h5]
    refine clickInv_mono s0 _ h0 ?_ ?_ ?_ <;> simp [wlog, wqueue]
  rw [if_neg h5]
  by_cases h6 : e.notupoMatch = true
  · rw [if_pos h6]
    refine clickInv_mono s0 _ h0 ?_ ?_ ?_ <;> simp [wlog, wqueue]
  rw [if_neg h6]
  by_cases h7 : s0.now - s0.lastClick < click_cooldown
  · rw [if_pos h7]
    exact clickInv_mono s0 _ h0 rfl rfl (by dsimp only; linarith)
  rw [if_neg h7]
  have hcool : s0.lastClick + click_cooldown ≤ s0.now := by linarith
  have hr := forLoop_clickInv e s0.now (decide (10 < s0.now - s0.lastLogTime))
    hE e.templates s0 h0 rfl hcool
  by_cases h8 : (forLoop e s0.now (decide (10 < s0.now - s0.lastLogTime))
      s0 e.templates).2 = true
  · rw [if_pos h8]
    exact hr
  rw [if_neg h8]
  by_cases h9 : decide (10 < s0.now - s0.lastLogTime) = true
  · rw [if_pos h9]
    refine clickInv_mono _ _ hr ?_ ?_ ?_ <;> simp [wlog] <;> linarith
  · rw [if_neg h9]
    exact clickInv_mono _ _ hr rfl rfl (by dsimp only; linarith)

theorem runW_clickInv (es : List IterEnv) (s : WState)
    (hE : ∀ e ∈ es, EnvOK e) (h : ClickInv s) : ClickInv (runW s es) := by
  induction es generalizing s with
  | nil => exact h
  | cons e rest ih =>
    have hstep := step_clickInv s e (hE e (List.mem_cons_self e rest)) h
    have : runW s (e :: rest) = runW (step s e) rest := by
      simp only [runW, List.foldl_cons]
    rw [this]
    exact ih (step s e) (fun e' he' => hE e' (List.mem_cons_of_mem e he')) hstep

/-- C2: for every device worker, any two consecutive successful clicks it
dispatches are separated by at least the global click cooldown constant
(1.0 s), for every environment sequence — regardless of which templates
were clicked, since the cooldown state (`last_click_time`) is global per
device, not per template. -/
theorem C2_global_cooldown (t0 dur : ℚ) (es : List IterEnv)
    (ht0 : 0 ≤ t0) (hE : ∀ e ∈ es, EnvOK e) :
    ((runW (initW t0 dur) es).clicks).Chain'
      (fun a b => a + click_cooldown ≤ b) := by
  have hinit : ClickInv (initW t0 dur) := by
    refine ⟨?_, ?_, ?_⟩
    · exact List.chain'_nil
    · simpa [initW] using ht0
    · intro c hc
      simp [initW] at hc
  exact (runW_clickInv es (initW t0 dur) hE hinit).1

/-- Witness for C2: a worker started at `t0 = 5` clicks a normal button
in the first iteration (dispatch time 5) and `button7` in the second
(dispatch time 15, after the 2 s post-delay and the 8 s pre-wait); the
two recorded dispatch times are cooldown-separated. -/
theorem C2_global_cooldown_witness :
    (0:ℚ) ≤ 5 ∧
    ((runW (initW 5 1)
      [{ stopSignal := false, pauseSignal := none, captureOk := true,
         loseMatch := false, notupoMatch := false,
         templates := [("button1", some (100, 200))], b7wait := 9,
         postDelay := 2, adb := Except.ok "", offs := 10, offC := 1,
         offS := 0, recheckCaptureOk := true, recheckNotupo := false,
         iterFails := false },
       { stopSignal := false, pauseSignal := none, captureOk := true,
         loseMatch := false, notupoMatch := false,
         templates := [("button7", some (300, 400))], b7wait := 8,
         postDelay := 1, adb := Except.ok "", offs := 10, offC := 1,
         offS := 0, recheckCaptureOk := true, recheckNotupo := false,
         iterFails := false }]).clicks).Chain'
      (fun a b => a + click_cooldown ≤ b) :=
  ⟨by norm_num,
    C2_global_cooldown 5 1 _ (by norm_num) (by
      intro e he
      rcases List.mem_cons.mp he with h1 | h1
      · rw [h1]
        exact ⟨by norm_num, by norm_num, by norm_num, by norm_num⟩
      · rcases List.mem_cons.mp h1 with h2 | h2
        · rw [h2]
          exact ⟨by norm_num, by norm_num, by norm_num, by norm_num⟩
        · simp at h2)⟩

/-- C5: the abort detectors ("lose", "notupo") are evaluated right after
capture, before the cooldown check and before ANY normal action template;
when either matches, the iteration dispatches no tap — whatever normal
templates would also have matched in `e.templates` — and the session is
set to Paused. -/
theorem C5_abort_priority (s : WState) (e : IterEnv)
    (hex : s.exited = false) (hstop : s.stopped = false)
    (hsig : e.stopSignal = false) (hpause : s.paused = false)
    (hpsig : e.pauseSignal = none) (htime : s.now < s.endTime)
    (hfail : e.iterFails = false) (hcap : e.captureOk = true)
    (habort : e.loseMatch = true ∨ e.notupoMatch = true) :
    (step s e).clicks = s.clicks ∧ (step s e).paused = true := by
  by_cases hl : e.loseMatch = true
  · constructor <;>
      simp [step, hex, hstop, hsig, hpsig, hpause, hfail, hcap, hl,
        htime.not_le, wlog, wqueue]
  · have hn : e.notupoMatch = true := habort.resolve_left hl
    constructor <;>
      simp [step, hex, hstop, hsig, hpsig, hpause, hfail, hcap, hl, hn,
        htime.not_le, wlog, wqueue]

/-- Witness for C5: a freshly started worker sees a frame where both the
"lose" abort template and a normal button match; no click is recorded and
the session pauses. -/
theorem C5_abort_priority_witness :
    (step (initW 0 1)
      { stopSignal := false, pauseSignal := none, captureOk := true,
        loseMatch := true, notupoMatch := false,
        templates := [("button1", some (100, 200))], b7wait := 9,
        postDelay := 2, adb := Except.ok "", offs := 10, offC := 1,
        offS := 0, recheckCaptureOk := true, recheckNotupo := false,
        iterFails := false }).clicks = (initW 0 1).clicks ∧
    (step (initW 0 1)
      { stopSignal := false, pauseSignal := none, captureOk := true,
        loseMatch := true, notupoMatch := false,
        templates := [("button1", some (100, 200))], b7wait := 9,
        postDelay := 2, adb := Except.ok "", offs := 10, offC := 1,
        offS := 0, recheckCaptureOk := true, recheckNotupo := false,
        iterFails := false }).paused = true :=
  C5_abort_priority (initW 0 1) _ rfl rfl rfl rfl rfl
    (by norm_num [initW]) rfl rfl (Or.inl rfl)

/-- C3 counterexample: when the resource-exhausted ("notupo") template
matches, the source sets the pause event and then `break`s out of the
`while` loop entirely — the worker loop does NOT stay live in the Paused
state; the thread exits. Here a freshly started worker observes a
"notupo" frame and the loop is exited (`exited = true`), refuting "ends
only the current iteration — the worker loop itself stays live in the
Paused state". -/
theorem C3_abort_stays_live_counterexample :
    (step (initW 0 1)
      { stopSignal := false, pauseSignal := none, captureOk := true,
        loseMatch := false, notupoMatch := true,
        templates := [("button1", some (100, 200))], b7wait := 9,
        postDelay := 2, adb := Except.ok "", offs := 10, offC := 1,
        offS := 0, recheckCaptureOk := true, recheckNotupo := false,
        iterFails := false }).exited = true ∧
    (step (initW 0 1)
      { stopSignal := false, pauseSignal := none, captureOk := true,
        loseMatch := false, notupoMatch := true,
        templates := [("button1", some (100, 200))], b7wait := 9,
        postDelay := 2, adb := Except.ok "", offs := 10, offC := 1,
        offS := 0, recheckCaptureOk := true, recheckNotupo := false,
        iterFails := false }).paused = true := by
  constructor <;> norm_num [step, initW, wlog, wqueue]

/-- C3 amended: when an abort-trigger template matches (the loss
condition "lose" or the resource-exhausted condition "notupo" — "lose"
is checked first, so it wins when both match), the worker does not
click, records exactly one warning event in the history (plus two raw
UI-queue messages: the warning and its "paused" duplicate), sets the
session to Paused — and BREAKS OUT of the worker loop entirely: the
loop is exited and the thread ends, so every later iteration is a
no-op; a second occurrence before resume is impossible within this
worker (resuming via `toggle_device` restarts a fresh worker). -/
theorem C3_abort_pauses_and_breaks (s : WState) (e : IterEnv)
    (hex : s.exited = false) (hstop : s.stopped = false)
    (hsig : e.stopSignal = false) (hpause : s.paused = false)
    (hpsig : e.pauseSignal = none) (htime : s.now < s.endTime)
    (hfail : e.iterFails = false) (hcap : e.captureOk = true)
    (habort : e.loseMatch = true ∨ e.notupoMatch = true) :
    (step s e).clicks = s.clicks ∧
    (step s e).paused = true ∧
    (step s e).exited = true ∧
    (e.loseMatch = true →
      (step s e).history = s.history ++ [(Msg.loseDetected, Level.warning)] ∧
      (step s e).uiQueue = s.uiQueue ++ [(Msg.loseDetected, Level.warning),
        (Msg.losePausedNotice, Level.warning)]) ∧
    (e.loseMatch = false →
      (step s e).history = s.history ++ [(Msg.notupoDetected, Level.warning)] ∧
      (step s e).uiQueue = s.uiQueue ++ [(Msg.notupoDetected, Level.warning),
        (Msg.notupoPausedNotice, Level.warning)]) ∧
    ∀ e', step (step s e) e' = step s e := by
  by_cases hl : e.loseMatch = true
  · have hstep : step s e = { s with
        paused := true, exited := true,
        history := s.history ++ [(Msg.loseDetected, Level.warning)],
        uiQueue := s.uiQueue ++ [(Msg.loseDetected, Level.warning),
          (Msg.losePausedNotice, Level.warning)] } := by
      simp [step, hex, hstop, hsig, hpsig, hpause, hfail, hcap, hl,
        htime.not_le, wlog, wqueue]
    refine ⟨by rw [hstep], by rw [hstep], by rw [hstep],
      fun _ => ⟨by rw [hstep], by rw [hstep]⟩, ?_, ?_⟩
    · intro hlf
      rw [hlf] at hl
      exact absurd hl Bool.false_ne_true
    · intro e'
      rw [hstep]
      simp [step]
  · have hlf : e.loseMatch = false := by
      revert hl
      cases e.loseMatch <;> simp
    have hn : e.notupoMatch = true := habort.resolve_left hl
    have hstep : step s e = { s with
        paused := true, exited := true,
        history := s.history ++ [(Msg.notupoDetected, Level.warning)],
        uiQueue := s.uiQueue ++ [(Msg.notupoDetected, Level.warning),
          (Msg.notupoPausedNotice, Level.warning)] } := by
      simp [step, hex, hstop, hsig, hpsig, hpause, hfail, hcap, hlf, hn,
        htime.not_le, wlog, wqueue]
    refine ⟨by rw [hstep], by rw [hstep], by rw [hstep], ?_,
      fun _ => ⟨by rw [hstep], by rw [hstep]⟩, ?_⟩
    · intro hlt
      rw [hlf] at hlt
      exact absurd hlt Bool.false_ne_true
    · intro e'
      rw [hstep]
      simp [step]

/-- Witness for the amended C3 theorem at a loss-condition input: the
"lose" abort template matches a freshly started worker's frame. -/
theorem C3_abort_pauses_and_breaks_witness :
    (step (initW 0 1)
      { stopSignal := false, pauseSignal := none, captureOk := true,
        loseMatch := true, notupoMatch := false,
        templates := [("button1", some (100, 200))], b7wait := 9,
        postDelay := 2, adb := Except.ok "", offs := 10, offC := 1,
        offS := 0, recheckCaptureOk := true, recheckNotupo := false,
        iterFails := false }).clicks = (initW 0 1).clicks ∧
    (step (initW 0 1)
      { stopSignal := false, pauseSignal := none, captureOk := true,
        loseMatch := true, notupoMatch := false,
        templates := [("button1", some (100, 200))], b7wait := 9,
        postDelay := 2, adb := Except.ok "", offs := 10, offC := 1,
        offS := 0, recheckCaptureOk := true, recheckNotupo := false,
        iterFails := false }).paused = true ∧
    (step (initW 0 1)
      { stopSignal := false, pauseSignal := none, captureOk := true,
        loseMatch := true, notupoMatch := false,
        templates := [("button1", some (100, 200))], b7wait := 9,
        postDelay := 2, adb := Except.ok "", offs := 10, offC := 1,
        offS := 0, recheckCaptureOk := true, recheckNotupo := false,
        iterFails := false }).exited = true ∧
    ((true : Bool) = true →
      (step (initW 0 1)
        { stopSignal := false, pauseSignal := none, captureOk := true,
          loseMatch := true, notupoMatch := false,
          templates := [("button1", some (100, 200))], b7wait := 9,
          postDelay := 2, adb := Except.ok "", offs := 10, offC := 1,
          offS := 0, recheckCaptureOk := true, recheckNotupo := false,
          iterFails := false }).history =
        (initW 0 1).history ++ [(Msg.loseDetected, Level.warning)] ∧
      (step (initW 0 1)
        { stopSignal := false, pauseSignal := none, captureOk := true,
          loseMatch := true, notupoMatch := false,
          templates := [("button1", some (100, 200))], b7wait := 9,
          postDelay := 2, adb := Except.ok "", offs := 10, offC := 1,
          offS := 0, recheckCaptureOk := true, recheckNotupo := false,
          iterFails := false }).uiQueue =
        (initW 0 1).uiQueue ++ [(Msg.loseDetected, Level.warning),
          (Msg.losePausedNotice, Level.warning)]) ∧
    ((true : Bool) = false →
      (step (initW 0 1)
        { stopSignal := false, pauseSignal := none, captureOk := true,
          loseMatch := true, notupoMatch := false,
          templates := [("button1", some (100, 200))], b7wait := 9,
          postDelay := 2, adb := Except.ok "", offs := 10, offC := 1,
          offS := 0, recheckCaptureOk := true, recheckNotupo := false,
          iterFails := false }).history =
        (initW 0 1).history ++ [(Msg.notupoDetected, Level.warning)] ∧
      (step (initW 0 1)
        { stopSignal := false, pauseSignal := none, captureOk := true,
          loseMatch := true, notupoMatch := false,
          templates := [("button1", some (100, 200))], b7wait := 9,
          postDelay := 2, adb := Except.ok "", offs := 10, offC := 1,
          offS := 0, recheckCaptureOk := true, recheckNotupo := false,
          iterFails := false }).uiQueue =
        (initW 0 1).uiQueue ++ [(Msg.notupoDetected, Level.warning),
          (Msg.notupoPausedNotice, Level.warning)]) ∧
    ∀ e', step (step (initW 0 1)
      { stopSignal := false, pauseSignal := none, captureOk := true,
        loseMatch := true, notupoMatch := false,
        templates := [("button1", some (100, 200))], b7wait := 9,
        postDelay := 2, adb := Except.ok "", offs := 10, offC := 1,
        offS := 0, recheckCaptureOk := true, recheckNotupo := false,
        iterFails := false }) e' =
      step (initW 0 1)
      { stopSignal := false, pauseSignal := none, captureOk := true,
        loseMatch := true, notupoMatch := false,
        templates := [("button1", some (100, 200))], b7wait := 9,
        postDelay := 2, adb := Except.ok "", offs := 10, offC := 1,
        offS := 0, recheckCaptureOk := true, recheckNotupo := false,
        iterFails := false } :=
  C3_abort_pauses_and_breaks (initW 0 1) _ rfl rfl rfl rfl rfl
    (by norm_num [initW]) rfl rfl (Or.inl rfl)

theorem forLoop_endTime (e : IterEnv) (curT : ℚ) (v : Bool) :
    ∀ (ts : List (String × Option (ℤ × ℤ))) (s : WState),
      ((forLoop e curT v s ts).1).endTime = s.endTime := by
  intro ts
  induction ts with
  | nil =>
    intro s
    simp only [forLoop]
  | cons head rest ih =>
    obtain ⟨name, res⟩ := head
    intro s
    simp only [forLoop]
    by_cases hsp : s.stopped = true ∨ s.paused = true
    · rw [if_pos hsp]
    rw [if_neg hsp]
    cases res with
    | none =>
      dsimp only
      exact ih s
    | some xy =>
      obtain ⟨x, y⟩ := xy
      dsimp only
      by_cases h10 : name = "button10"
      · rw [if_pos h10, if_pos (random_click_snd e.adb x y e.offs e.offC e.offS)]
        by_cases hrc : e.recheckCaptureOk = true ∧ e.recheckNotupo = true
        · rw [if_pos hrc]
          split <;> simp [wlog, wqueue]
        · rw [if_neg hrc]
          split <;> simp [wlog]
      rw [if_neg h10]
      by_cases h7 : name = "button7"
      · rw [if_pos h7, if_pos (random_click_snd e.adb x y e.offs e.offC e.offS)]
        split <;> simp [wlog]
      · rw [if_neg h7, if_pos (random_click_snd e.adb x y e.offs e.offC e.offS)]
        split <;> simp [wlog]

theorem step_endTime (s : WState) (e : IterEnv) :
    (step s e).endTime = s.endTime := by
  unfold step
  by_cases hex : s.exited = true
  · rw [if_pos hex]
  rw [if_neg hex]
  dsimp only
  set s0 : WState := { s with
    stopped := s.stopped || e.stopSignal,
    paused := match e.pauseSignal with | some b => b | none => s.paused }
    with hs0
  have hend0 : s0.endTime = s.endTime := by rw [hs0]
  by_cases h1 : s0.stopped = true ∨ s0.endTime ≤ s0.now
  · rw [if_pos h1]
  rw [if_neg h1]
  by_cases h2 : s0.paused = true
  · rw [if_pos h2]
  rw [if_neg h2]
  by_cases h3 : e.iterFails = true
  · rw [if_pos h3]
    simpa [wlog] using hend0
  rw [if_neg h3]
  by_cases h4 : e.captureOk = false
  · rw [if_pos h4]
    simpa [wlog] using hend0
  rw [if_neg h4]
  by_cases h5 : e.loseMatch = true
  · rw [if_pos h5]
    simpa [wlog, wqueue] using hend0
  rw [if_neg h5]
  by_cases h6 : e.notupoMatch = true
  · rw [if_pos h6]
    simpa [wlog, wqueue] using hend0
  rw [if_neg h6]
  by_cases h7 : s0.now - s0.lastClick < click_cooldown
  · rw [if_pos h7]
  rw [if_neg h7]
  have hfl := forLoop_endTime e s0.now
    (decide (10 < s0.now - s0.lastLogTime)) e.templates s0
  by_cases h8 : (forLoop e s0.now (decide (10 < s0.now - s0.lastLogTime))
      s0 e.templates).2 = true
  · rw [if_pos h8]
    rw [hfl]
  rw [if_neg h8]
  by_cases h9 : decide (10 < s0.now - s0.lastLogTime) = true
  · rw [if_pos h9]
    simp only [wlog]
    rw [hfl]
  · rw [if_neg h9]
    dsimp only
    rw [hfl]

/-- C9: the worker's deadline is fixed at thread start
(`end_time = start + duration*60`) and never changes across iterations,
and the `while` condition is re-evaluated every iteration even while the
pause flag is set — any not-yet-exited worker (paused or not) whose
clock has reached the deadline exits the loop on its next iteration, so
pausing does not extend the planned run duration. -/
theorem C9_deadline_fixed_and_pause_exits (t0 dur : ℚ) (es : List IterEnv)
    (s : WState) (e : IterEnv) (hex : s.exited = false)
    (hend : s.endTime ≤ s.now) :
    (runW (initW t0 dur) es).endTime = t0 + dur * 60 ∧
    (step s e).exited = true := by
  constructor
  · have hrun : ∀ (l : List IterEnv) (s' : WState),
        (runW s' l).endTime = s'.endTime := by
      intro l
      induction l with
      | nil => intro s'; rfl
      | cons e' rest ih =>
        intro s'
        have : runW s' (e' :: rest) = runW (step s' e') rest := by
          simp only [runW, List.foldl_cons]
        rw [this, ih, step_endTime]
    rw [hrun]
    rfl
  · unfold step
    rw [if_neg (by rw [hex]; exact Bool.false_ne_true)]
    dsimp only
    rw [if_pos (Or.inr hend)]

/-- Witness for C9: a paused, never-stopped worker one second past its
60-second deadline exits on its next iteration, and the deadline of any
run equals `start + duration*60`. -/
theorem C9_deadline_fixed_and_pause_exits_witness :
    (runW (initW 0 1) []).endTime = 0 + 1 * 60 ∧
    (step { initW 0 1 with now := 61, paused := true }
      { stopSignal := false, pauseSignal := none, captureOk := true,
        loseMatch := false, notupoMatch := false, templates := [],
        b7wait := 9, postDelay := 2, adb := Except.ok "", offs := 10,
        offC := 1, offS := 0, recheckCaptureOk := true,
        recheckNotupo := false, iterFails := false }).exited = true :=
  C9_deadline_fixed_and_pause_exits 0 1 []
    { initW 0 1 with now := 61, paused := true } _ rfl
    (by norm_num [initW])

end AutoUI
